import Mathlib

/-!
Shallow embedding of `src/slack/command.py` (the emoter command layer).

Commands are small objects with an asynchronous `execute` method acting on an
external Slack client (and, for `HistoryCommand`, an external history store).
The embedding makes the externals explicit oracles whose operations may fail
(`Except`), and `execute` returns an `Outcome`: the Python return value (or
the propagated error), the ordered trace of client/store calls attempted, the
files removed from disk via `os.remove`, and the argument lists of callback
invocations.  The sequential `await`-one-at-a-time execution of the Python
coroutine is modelled by the ordered call trace of the sequential loop.
-/

namespace Emoter

/-- Python slice `s[a:b]` on a string (as a character list), for `0 ≤ a ≤ b`
(the only shape the source uses: `text[4000*i : 4000*(i+1)]`). -/
def pySlice (s : List Char) (a b : Nat) : List Char := (s.drop a).take (b - a)

/-- The `event` argument of `execute`: the fields the commands read
(`event['channel']`, `event['user']`, `event['ts']`). -/
structure Event where
  channel : String
  user : String
  ts : String
deriving DecidableEq

/-- A record held by the external history store (`HistoryDoc`), exposing
`channel`, `user`, `text` and `time` (spec §6: store records expose exactly
these fields; the store itself is an external collaborator). -/
structure StoreRec where
  channel : String
  user : String
  text : String
  time : String
deriving DecidableEq

/-- `Record = namedtuple('Record', ['channel', 'user', 'text', 'time'])`. -/
structure Record where
  channel : String
  user : String
  text : String
  time : String
deriving DecidableEq

/-- A message destination, kept symbolic: `slack.ids.cid(arg)` or
`slack.ids.dmid(arg)`, recording which lookup was used and on what argument. -/
inductive Dest where
  | cid (arg : Option String)
  | dmid (arg : Option String)
deriving DecidableEq

/-- One client/store call, with the arguments it was given. -/
inductive Call where
  | send (chunk : List Char) (dest : Dest)
  | delete_message (channel : String) (user : String) (ts : String)
  | query (channel : Option String) (user : Option String)
  | react (emoji : String) (event : Event)
  | upload_file (f_name : Option String) (channel : Option String) (user : Option String)
deriving DecidableEq

/-- The Slack client as an oracle: each awaited operation either succeeds or
raises an error of type `ε` (spec §6: the client capability surface). -/
structure Slack (ε : Type) where
  send : List Char → Dest → Except ε Unit
  delete_message : String → String → String → Except ε Unit
  react : String → Event → Except ε Unit
  upload_file : Option String → Option String → Option String → Except ε Unit

/-- The external history store as an oracle: `HistoryDoc.objects(**kwargs)`,
keyed by the optional `channel` and `user` filters actually passed; it returns
an ordered list of records or raises. -/
structure HistoryStore (ε : Type) where
  objects : Option String → Option String → Except ε (List StoreRec)

/-- Everything observable about one `execute` run: the Python return value
(`none` models Python `None`; errors propagate as `Except.error`), the ordered
trace of client/store calls attempted, the file names removed via
`os.remove`, and the argument lists the history callback was invoked on. -/
structure Outcome (ε ρ : Type) where
  result : Except ε (Option ρ)
  calls : List Call
  removed : List (Option String)
  cbCalls : List (List Record)

/-- Python truthiness of an optional string: `None` and `''` are falsy. -/
def isTruthy : Option String → Bool
  | none => false
  | some s => !s.isEmpty

variable {ε ρ : Type}

/-- `MessageCommand.__init__(self, channel=None, user=None, text='')`. -/
structure MessageCommand where
  channel : Option String
  user : Option String
  text : List Char
deriving DecidableEq

/-- Destination resolution in `MessageCommand.execute`:
`slack.ids.cid(self.channel) if self.channel else slack.ids.dmid(self.user)`. -/
def MessageCommand.dest (cmd : MessageCommand) : Dest :=
  if isTruthy cmd.channel then Dest.cid cmd.channel else Dest.dmid cmd.user

/-- The chunk count `(len(self.text) - 1) // 4000 + 1` of
`MessageCommand.execute`, computed with Python's floor division on integers;
`range` of a nonpositive integer is empty, hence the final `toNat`. -/
def MessageCommand.numChunks (n : Nat) : Nat :=
  (Int.fdiv ((n : Int) - 1) 4000 + 1).toNat

/-- The `for index in range(...)` loop body of `MessageCommand.execute`:
awaits `slack.send` on each chunk in index order, stopping at the first
error, and records the calls attempted in order. -/
def sendLoop (slack : Slack ε) (text : List Char) (dest : Dest) :
    List Nat → Except ε Unit × List Call
  | [] => (Except.ok (), [])
  | i :: rest =>
    let chunk := pySlice text (4000 * i) (4000 * (i + 1))
    match slack.send chunk dest with
    | Except.error e => (Except.error e, [Call.send chunk dest])
    | Except.ok _ =>
      let r := sendLoop slack text dest rest
      (r.1, Call.send chunk dest :: r.2)

/-- `MessageCommand.execute(self, slack, event=None)`. -/
def MessageCommand.execute (cmd : MessageCommand) (slack : Slack ε) (_event : Event) :
    Outcome ε ρ :=
  let r := sendLoop slack cmd.text cmd.dest (List.range (MessageCommand.numChunks cmd.text.length))
  ⟨r.1.map (fun _ => none), r.2, [], []⟩

/-- `DeleteCommand`: its `__init__` body is `pass`, so an instance carries no
state at all. -/
structure DeleteCommand where
deriving DecidableEq

/-- `DeleteCommand.__init__(self, channel=None, user=None, text='')`: accepts
its arguments and ignores them. -/
def DeleteCommand.init (_channel : Option String) (_user : Option String)
    (_text : List Char) : DeleteCommand := ⟨⟩

/-- `DeleteCommand.execute`: `await slack.delete_message(event['channel'],
event['user'], event['ts'])`. -/
def DeleteCommand.execute (_cmd : DeleteCommand) (slack : Slack ε) (event : Event) :
    Outcome ε ρ :=
  match slack.delete_message event.channel event.user event.ts with
  | Except.error e =>
    ⟨Except.error e, [Call.delete_message event.channel event.user event.ts], [], []⟩
  | Except.ok _ =>
    ⟨Except.ok none, [Call.delete_message event.channel event.user event.ts], [], []⟩

/-- `HistoryCommand.__init__(self, callback, channel=None, user=None)`.  The
callback is caller-supplied code returning a Python value (possibly `None`,
modelled by `Option ρ`). -/
structure HistoryCommand (ρ : Type) where
  callback : List Record → Option ρ
  channel : Option String
  user : Option String

/-- The `channel` entry of `kwargs` built by `HistoryCommand.execute`:
present exactly when `self.channel` is truthy. -/
def HistoryCommand.kwargsChannel (cmd : HistoryCommand ρ) : Option String :=
  if isTruthy cmd.channel then cmd.channel else none

/-- The `user` entry of `kwargs` built by `HistoryCommand.execute`:
present exactly when `self.user` is truthy. -/
def HistoryCommand.kwargsUser (cmd : HistoryCommand ρ) : Option String :=
  if isTruthy cmd.user then cmd.user else none

/-- `HistoryCommand.execute`: queries `HistoryDoc.objects(**kwargs)`, maps
each returned record `r` to `Record(r.channel, r.user, r.text, r.time)` in
order, and returns `await self.callback(hist_list)`. -/
def HistoryCommand.execute (cmd : HistoryCommand ρ) (store : HistoryStore ε)
    (_event : Event) : Outcome ε ρ :=
  match store.objects cmd.kwargsChannel cmd.kwargsUser with
  | Except.error e =>
    ⟨Except.error e, [Call.query cmd.kwargsChannel cmd.kwargsUser], [], []⟩
  | Except.ok hist_objects =>
    let hist_list := hist_objects.map (fun r => Record.mk r.channel r.user r.text r.time)
    ⟨Except.ok (cmd.callback hist_list),
      [Call.query cmd.kwargsChannel cmd.kwargsUser], [], [hist_list]⟩

/-- `ReactCommand.__init__(self, emoji)`, stored as `self._emoji`. -/
structure ReactCommand where
  emoji : String
deriving DecidableEq

/-- `ReactCommand.execute`: `await slack.react(self._emoji, event)`. -/
def ReactCommand.execute (cmd : ReactCommand) (slack : Slack ε) (event : Event) :
    Outcome ε ρ :=
  match slack.react cmd.emoji event with
  | Except.error e => ⟨Except.error e, [Call.react cmd.emoji event], [], []⟩
  | Except.ok _ => ⟨Except.ok none, [Call.react cmd.emoji event], [], []⟩

/-- `UploadCommand.__init__(self, user=None, channel=None, file_name=None,
delete=False)`. -/
structure UploadCommand where
  user : Option String
  channel : Option String
  file_name : Option String
  delete : Bool
deriving DecidableEq

/-- `UploadCommand.execute`: awaits
`slack.upload_file(f_name=self.file_name, channel=self.channel, user=self.user)`;
only if that completes without raising and `self.delete` holds does
`os.remove(self.file_name)` run. -/
def UploadCommand.execute (cmd : UploadCommand) (slack : Slack ε) (_event : Event) :
    Outcome ε ρ :=
  match slack.upload_file cmd.file_name cmd.channel cmd.user with
  | Except.error e =>
    ⟨Except.error e, [Call.upload_file cmd.file_name cmd.channel cmd.user], [], []⟩
  | Except.ok _ =>
    ⟨Except.ok none, [Call.upload_file cmd.file_name cmd.channel cmd.user],
      if cmd.delete then [cmd.file_name] else [], []⟩

/-- The five concrete `Command` subclasses of `src/slack/command.py`. -/
inductive Command (ρ : Type) where
  | message : MessageCommand → Command ρ
  | delete : DeleteCommand → Command ρ
  | history : HistoryCommand ρ → Command ρ
  | react : ReactCommand → Command ρ
  | upload : UploadCommand → Command ρ

/-- Whether a command is the `HistoryCommand` variant. -/
def Command.isHistory : Command ρ → Bool
  | Command.history _ => true
  | _ => false

/-- Polymorphic dispatch of `execute`.  The second component is the command
object itself as observable after `execute` (its attributes re-read at
return); the source never assigns to `self`, so it is rebuilt from the same
attribute values. -/
def Command.execute : Command ρ → Slack ε → HistoryStore ε → Event → Outcome ε ρ × Command ρ
  | Command.message m, slack, _, event =>
    (m.execute slack event, Command.message ⟨m.channel, m.user, m.text⟩)
  | Command.delete d, slack, _, event =>
    (d.execute slack event, Command.delete ⟨⟩)
  | Command.history h, _, store, event =>
    (h.execute store event, Command.history ⟨h.callback, h.channel, h.user⟩)
  | Command.react r, slack, _, event =>
    (r.execute slack event, Command.react ⟨r.emoji⟩)
  | Command.upload u, slack, _, event =>
    (u.execute slack event, Command.upload ⟨u.user, u.channel, u.file_name, u.delete⟩)

/-- A client on which every call succeeds. -/
def okSlack : Slack Unit :=
  ⟨fun _ _ => Except.ok (), fun _ _ _ => Except.ok (),
   fun _ _ => Except.ok (), fun _ _ _ => Except.ok ()⟩

/-- A store holding a fixed list of records and never failing. -/
def okStore (recs : List StoreRec) : HistoryStore Unit := ⟨fun _ _ => Except.ok recs⟩

/-- A concrete event for witnesses. -/
def ev0 : Event := ⟨"C0", "U0", "123.456"⟩

/-! ### Helper lemmas about the send loop and the chunk arithmetic -/

/-- On a client whose `send` always succeeds, the loop succeeds and its call
trace lists exactly the chunks of the given indices, in order. -/
theorem sendLoop_ok (slack : Slack ε) (text : List Char) (dest : Dest)
    (hok : ∀ chunk, slack.send chunk dest = Except.ok ())
    (idxs : List Nat) :
    sendLoop slack text dest idxs =
      (Except.ok (), idxs.map fun i => Call.send (pySlice text (4000 * i) (4000 * (i + 1))) dest) := by
  induction idxs with
  | nil => rfl
  | cons i rest ih => simp only [sendLoop, hok, ih, List.map_cons]

/-- If the loop's result is an error, that exact error was returned by a
`send` call of the client. -/
theorem sendLoop_error (slack : Slack ε) (text : List Char) (dest : Dest)
    (idxs : List Nat) (e : ε)
    (h : (sendLoop slack text dest idxs).1 = Except.error e) :
    ∃ chunk, slack.send chunk dest = Except.error e := by
  induction idxs with
  | nil => exact absurd h (by simp [sendLoop])
  | cons i rest ih =>
    rw [sendLoop] at h
    rcases hc : slack.send (pySlice text (4000 * i) (4000 * (i + 1))) dest with e' | u
    · rw [hc] at h
      simp only at h
      cases h
      exact ⟨_, hc⟩
    · rw [hc] at h
      exact ih h

/-- Every call the loop makes is a `send` to the fixed destination. -/
theorem sendLoop_calls_dest (slack : Slack ε) (text : List Char) (dest : Dest)
    (idxs : List Nat) :
    ∀ c ∈ (sendLoop slack text dest idxs).2, ∃ chunk, c = Call.send chunk dest := by
  induction idxs with
  | nil => intro c hc; exact absurd hc (by simp [sendLoop])
  | cons i rest ih =>
    intro c hc
    rw [sendLoop] at hc
    rcases hs : slack.send (pySlice text (4000 * i) (4000 * (i + 1))) dest with e | u
    · rw [hs] at hc
      simp only [List.mem_singleton] at hc
      exact ⟨_, hc⟩
    · rw [hs] at hc
      simp only [List.mem_cons] at hc
      rcases hc with hc | hc
      · exact ⟨_, hc⟩
      · exact ih c hc

/-- For empty text, Python's `(0 - 1) // 4000 + 1` is `0` (floor division of
`-1` by `4000` is `-1`): the loop runs zero times. -/
theorem numChunks_zero : MessageCommand.numChunks 0 = 0 := by decide

/-- For nonempty text the chunk count is the natural-number expression
`(n - 1) / 4000 + 1`. -/
theorem numChunks_of_pos {n : Nat} (h : 1 ≤ n) :
    MessageCommand.numChunks n = (n - 1) / 4000 + 1 := by
  unfold MessageCommand.numChunks
  rw [show ((n : Int) - 1) = ((n - 1 : Nat) : Int) by omega]
  rw [show (4000 : Int) = ((4000 : Nat) : Int) by norm_cast]
  rw [← Int.ofNat_fdiv]
  omega

/-- For nonempty text the chunk count is the ceiling of `n / 4000`. -/
theorem numChunks_eq_ceilDiv {n : Nat} (h : 1 ≤ n) :
    MessageCommand.numChunks n = n ⌈/⌉ 4000 := by
  rw [numChunks_of_pos h]
  show (n - 1) / 4000 + 1 = (n + 4000 - 1) / 4000
  rw [show n + 4000 - 1 = (n - 1) + 4000 by omega]
  rw [Nat.add_div_right _ (by norm_num)]

/-- The text is covered: `4000 * numChunks n ≥ n`. -/
theorem le_4000_mul_numChunks (n : Nat) : n ≤ 4000 * MessageCommand.numChunks n := by
  rcases Nat.eq_zero_or_pos n with h | h
  · simp [h]
  · rw [numChunks_of_pos h]
    omega

/-- Concatenating the first `k` chunks of `s` yields `s.take (4000 * k)`. -/
theorem flatten_pySlices (s : List Char) (k : Nat) :
    ((List.range k).map fun i => pySlice s (4000 * i) (4000 * (i + 1))).flatten
      = s.take (4000 * k) := by
  induction k with
  | zero => simp
  | succ k ih =>
    rw [List.range_succ, List.map_append, List.flatten_append]
    simp only [List.map_cons, List.map_nil, List.flatten_cons, List.flatten_nil,
      List.append_nil]
    rw [ih]
    unfold pySlice
    rw [show 4000 * (k + 1) - 4000 * k = 4000 by omega]
    rw [show 4000 * (k + 1) = 4000 * k + 4000 by omega]
    exact (List.take_add s (4000 * k) 4000).symm

/-- Every chunk has length at most `4000`. -/
theorem pySlice_length_le (s : List Char) (i : Nat) :
    (pySlice s (4000 * i) (4000 * (i + 1))).length ≤ 4000 := by
  unfold pySlice
  calc (List.take (4000 * (i + 1) - 4000 * i) (s.drop (4000 * i))).length
      ≤ 4000 * (i + 1) - 4000 * i := by
        rw [List.length_take]; exact Nat.min_le_left _ _
    _ = 4000 := by omega

/-! ### Claim theorems -/

/-- C1, counterexample: a `MessageCommand` with empty text sends no chunk at
all — the loop bound `(0 - 1) // 4000 + 1` is `0` under Python floor
division — so it is false that exactly one (empty) message is sent. -/
theorem C1_counterexample :
    (MessageCommand.execute ⟨some "C", none, []⟩ okSlack ev0 : Outcome Unit Unit).calls = [] ∧
    ¬(MessageCommand.execute ⟨some "C", none, []⟩ okSlack ev0 : Outcome Unit Unit).calls.length = 1 := by
  constructor
  · rfl
  · decide

/-- C1, amended: for every text of length at most 4000,
`MessageCommand.execute` sends exactly one chunk equal to the whole text when
the text is nonempty, and sends zero chunks when the text is empty. -/
theorem C1_small_text_chunks (cmd : MessageCommand) (slack : Slack ε) (event : Event)
    (h : cmd.text.length ≤ 4000) :
    (cmd.execute slack event : Outcome ε ρ).calls =
      if cmd.text.length = 0 then [] else [Call.send cmd.text cmd.dest] := by
  unfold MessageCommand.execute
  by_cases h0 : cmd.text.length = 0
  · simp [h0, numChunks_zero, sendLoop]
  · have h1 : 1 ≤ cmd.text.length := Nat.one_le_iff_ne_zero.mpr h0
    rw [numChunks_of_pos h1, Nat.div_eq_of_lt (by omega)]
    have hchunk : pySlice cmd.text 0 4000 = cmd.text := by
      unfold pySlice
      rw [List.drop_zero, Nat.sub_zero]
      exact List.take_of_length_le h
    cases hs : slack.send cmd.text cmd.dest <;> simp [sendLoop, hchunk, hs, h0]

/-- Witness for `C1_small_text_chunks` at a three-character text. -/
theorem C1_witness :
    (MessageCommand.execute ⟨none, some "U", ['a', 'b', 'c']⟩ okSlack ev0 : Outcome Unit Unit).calls =
      [Call.send ['a', 'b', 'c'] (Dest.dmid (some "U"))] := by
  have h := C1_small_text_chunks (ε := Unit) (ρ := Unit)
    ⟨none, some "U", ['a', 'b', 'c']⟩ okSlack ev0 (by decide)
  simpa using h

/-- A concrete command whose text is longer than one chunk. -/
def mcLong : MessageCommand := ⟨some "C", none, List.replicate 4001 'a'⟩

/-- C2: for text of length `N > 4000`, `MessageCommand.execute` (against a
client whose sends succeed) issues exactly `⌈N / 4000⌉` send calls, in
ascending chunk-index order, each chunk of length at most 4000, and the
in-order concatenation of the chunks is the whole text.  Sequential awaiting
is modelled by the ordered call trace of the sequential loop. -/
theorem C2_long_text_chunks (cmd : MessageCommand) (slack : Slack ε) (event : Event)
    (hlen : 4000 < cmd.text.length)
    (hok : ∀ chunk, slack.send chunk cmd.dest = Except.ok ()) :
    (cmd.execute slack event : Outcome ε ρ).calls =
      (List.range (cmd.text.length ⌈/⌉ 4000)).map
        (fun i => Call.send (pySlice cmd.text (4000 * i) (4000 * (i + 1))) cmd.dest) ∧
    (cmd.execute slack event : Outcome ε ρ).calls.length = cmd.text.length ⌈/⌉ 4000 ∧
    ((List.range (cmd.text.length ⌈/⌉ 4000)).map
        (fun i => pySlice cmd.text (4000 * i) (4000 * (i + 1)))).flatten = cmd.text ∧
    (∀ i : Nat, (pySlice cmd.text (4000 * i) (4000 * (i + 1))).length ≤ 4000) := by
  have h1 : 1 ≤ cmd.text.length := by omega
  have hc : MessageCommand.numChunks cmd.text.length = cmd.text.length ⌈/⌉ 4000 :=
    numChunks_eq_ceilDiv h1
  have hcalls : (cmd.execute slack event : Outcome ε ρ).calls =
      (List.range (cmd.text.length ⌈/⌉ 4000)).map
        (fun i => Call.send (pySlice cmd.text (4000 * i) (4000 * (i + 1))) cmd.dest) := by
    unfold MessageCommand.execute
    rw [hc, sendLoop_ok slack cmd.text cmd.dest hok]
  refine ⟨hcalls, ?_, ?_, fun i => pySlice_length_le _ i⟩
  · rw [hcalls, List.length_map, List.length_range]
  · rw [flatten_pySlices]
    apply List.take_of_length_le
    rw [← hc]
    exact le_4000_mul_numChunks _

/-- Witness for `C2_long_text_chunks` at a 4001-character text. -/
theorem C2_witness :
    (MessageCommand.execute mcLong okSlack ev0 : Outcome Unit Unit).calls =
      (List.range (mcLong.text.length ⌈/⌉ 4000)).map
        (fun i => Call.send (pySlice mcLong.text (4000 * i) (4000 * (i + 1))) mcLong.dest) ∧
    (MessageCommand.execute mcLong okSlack ev0 : Outcome Unit Unit).calls.length =
      mcLong.text.length ⌈/⌉ 4000 ∧
    ((List.range (mcLong.text.length ⌈/⌉ 4000)).map
        (fun i => pySlice mcLong.text (4000 * i) (4000 * (i + 1)))).flatten = mcLong.text ∧
    (∀ i : Nat, (pySlice mcLong.text (4000 * i) (4000 * (i + 1))).length ≤ 4000) :=
  C2_long_text_chunks mcLong okSlack ev0
    (by show 4000 < (List.replicate 4001 'a').length; rw [List.length_replicate]; norm_num)
    (fun _ => rfl)

/-- C3, counterexample: with `channel` set to the empty string (set, but
falsy) and a user present, the destination is resolved via `dmid`, not via
`cid` as the claim's "if `channel` is set" reading requires. -/
theorem C3_counterexample :
    MessageCommand.dest ⟨some "", some "U", []⟩ ≠ Dest.cid (some "") ∧
    MessageCommand.dest ⟨some "", some "U", []⟩ = Dest.dmid (some "U") := by
  constructor
  · decide
  · rfl

/-- C3, amended: if `channel` is truthy (set and non-empty) the destination
is resolved via the client's channel-id lookup `cid` regardless of `user`;
if `channel` is falsy (`None` or empty) it is resolved via the user-DM-id
lookup `dmid` applied to `user`; and every send `execute` issues goes to that
resolved destination. -/
theorem C3_dest_resolution (cmd : MessageCommand) (slack : Slack ε) (event : Event) :
    (isTruthy cmd.channel = true → cmd.dest = Dest.cid cmd.channel) ∧
    (isTruthy cmd.channel = false → cmd.dest = Dest.dmid cmd.user) ∧
    (∀ c ∈ (cmd.execute slack event : Outcome ε ρ).calls,
      ∃ chunk, c = Call.send chunk cmd.dest) := by
  refine ⟨fun h => ?_, fun h => ?_, fun c hc => ?_⟩
  · simp [MessageCommand.dest, h]
  · simp [MessageCommand.dest, h]
  · exact sendLoop_calls_dest slack cmd.text cmd.dest
      (List.range (MessageCommand.numChunks cmd.text.length)) c hc

/-- Witness for `C3_dest_resolution`: a truthy channel wins over the user,
and an absent channel falls back to the user DM lookup. -/
theorem C3_witness :
    MessageCommand.dest ⟨some "C", some "U", []⟩ = Dest.cid (some "C") ∧
    MessageCommand.dest ⟨none, some "U", []⟩ = Dest.dmid (some "U") :=
  ⟨(C3_dest_resolution (ε := Unit) (ρ := Unit) ⟨some "C", some "U", []⟩ okSlack ev0).1
      (by decide),
   (C3_dest_resolution (ε := Unit) (ρ := Unit) ⟨none, some "U", []⟩ okSlack ev0).2.1
      (by decide)⟩

/-- C4: `DeleteCommand` ignores its constructor arguments entirely — all
instances are equal — and `execute` issues exactly one delete request, whose
channel, user and timestamp come solely from the `event`. -/
theorem C4_delete_event_only (ch u ch' u' : Option String) (t t' : List Char)
    (slack : Slack ε) (event : Event) :
    DeleteCommand.init ch u t = DeleteCommand.init ch' u' t' ∧
    ((DeleteCommand.init ch u t).execute slack event : Outcome ε ρ).calls =
      [Call.delete_message event.channel event.user event.ts] := by
  refine ⟨rfl, ?_⟩
  unfold DeleteCommand.execute
  cases slack.delete_message event.channel event.user event.ts <;> rfl

/-- C5: `HistoryCommand.execute` queries the store with exactly the truthy
filters among `{channel, user}`, maps each returned store record to a
`Record` of its channel, user, text and time preserving the store's order,
invokes the callback exactly once with that full ordered list, and returns
the callback's own return value. -/
theorem C5_history_execute (cmd : HistoryCommand ρ) (store : HistoryStore ε) (event : Event)
    (recs : List StoreRec)
    (hq : store.objects cmd.kwargsChannel cmd.kwargsUser = Except.ok recs) :
    (cmd.execute store event : Outcome ε ρ).calls =
      [Call.query (if isTruthy cmd.channel then cmd.channel else none)
        (if isTruthy cmd.user then cmd.user else none)] ∧
    (cmd.execute store event : Outcome ε ρ).cbCalls =
      [recs.map fun r => Record.mk r.channel r.user r.text r.time] ∧
    (cmd.execute store event : Outcome ε ρ).result =
      Except.ok (cmd.callback (recs.map fun r => Record.mk r.channel r.user r.text r.time)) := by
  unfold HistoryCommand.execute
  rw [hq]
  exact ⟨rfl, rfl, rfl⟩

/-- Records of a concrete store for the history witness. -/
def histRecs : List StoreRec := [⟨"C1", "U1", "hi", "t1"⟩, ⟨"C2", "U2", "yo", "t2"⟩]

/-- A concrete history command whose callback returns the history length. -/
def hc0 : HistoryCommand Nat := ⟨fun l => some l.length, some "C1", none⟩

/-- Witness for `C5_history_execute` on a two-record store. -/
theorem C5_witness :
    (hc0.execute (okStore histRecs) ev0 : Outcome Unit Nat).calls =
      [Call.query (some "C1") none] ∧
    (hc0.execute (okStore histRecs) ev0 : Outcome Unit Nat).cbCalls =
      [[⟨"C1", "U1", "hi", "t1"⟩, ⟨"C2", "U2", "yo", "t2"⟩]] ∧
    (hc0.execute (okStore histRecs) ev0 : Outcome Unit Nat).result =
      Except.ok (some 2) := by
  have h := C5_history_execute hc0 (okStore histRecs) ev0 histRecs rfl
  exact ⟨h.1, h.2.1, h.2.2⟩

/-- C6: with `delete=True`, the local file named by `file_name` is removed
if and only if the client's `upload_file` call completes without raising;
on the error path the removal step is unreachable. -/
theorem C6_upload_delete_gated (cmd : UploadCommand) (slack : Slack ε) (event : Event)
    (hdel : cmd.delete = true) :
    ((cmd.execute slack event : Outcome ε ρ).removed = [cmd.file_name] ↔
      slack.upload_file cmd.file_name cmd.channel cmd.user = Except.ok ()) ∧
    (∀ e, slack.upload_file cmd.file_name cmd.channel cmd.user = Except.error e →
      (cmd.execute slack event : Outcome ε ρ).removed = []) := by
  unfold UploadCommand.execute
  cases hu : slack.upload_file cmd.file_name cmd.channel cmd.user <;> simp [hu, hdel]

/-- A concrete upload command with `delete=True`. -/
def up0 : UploadCommand := ⟨none, some "C", some "f.txt", true⟩

/-- Witness for `C6_upload_delete_gated` on an always-succeeding client. -/
theorem C6_witness :
    ((up0.execute okSlack ev0 : Outcome Unit Unit).removed = [up0.file_name] ↔
      okSlack.upload_file up0.file_name up0.channel up0.user = Except.ok ()) ∧
    (∀ e, okSlack.upload_file up0.file_name up0.channel up0.user = Except.error e →
      (up0.execute okSlack ev0 : Outcome Unit Unit).removed = []) :=
  C6_upload_delete_gated up0 okSlack ev0 rfl

/-! ### Per-variant result characterizations (used for C7 and C9) -/

/-- An error result of `MessageCommand.execute` is an error some `send`
returned. -/
theorem message_execute_error (m : MessageCommand) (slack : Slack ε)
    (event : Event) (e : ε)
    (h : (m.execute slack event : Outcome ε ρ).result = Except.error e) :
    ∃ chunk, slack.send chunk m.dest = Except.error e := by
  unfold MessageCommand.execute at h
  dsimp only at h
  cases hr : (sendLoop slack m.text m.dest
      (List.range (MessageCommand.numChunks m.text.length))).1 with
  | error e' =>
    rw [hr] at h
    have h' : (Except.error e' : Except ε (Option ρ)) = Except.error e := h
    injection h' with he
    subst he
    exact sendLoop_error slack m.text m.dest _ _ hr
  | ok u =>
    rw [hr] at h
    exact Except.noConfusion
      (show (Except.ok (none : Option ρ) : Except ε (Option ρ)) = Except.error e from h)

/-- A successful `MessageCommand.execute` returns `None`. -/
theorem message_execute_ok (m : MessageCommand) (slack : Slack ε)
    (event : Event) (r : Option ρ)
    (h : (m.execute slack event : Outcome ε ρ).result = Except.ok r) : r = none := by
  unfold MessageCommand.execute at h
  dsimp only at h
  cases hr : (sendLoop slack m.text m.dest
      (List.range (MessageCommand.numChunks m.text.length))).1 with
  | error e' =>
    rw [hr] at h
    exact Except.noConfusion
      (show (Except.error e' : Except ε (Option ρ)) = Except.ok r from h)
  | ok u =>
    rw [hr] at h
    have h' : (Except.ok (none : Option ρ) : Except ε (Option ρ)) = Except.ok r := h
    injection h' with he
    exact he.symm

/-- An error result of `DeleteCommand.execute` is the client's
`delete_message` error. -/
theorem delete_execute_error (d : DeleteCommand) (slack : Slack ε)
    (event : Event) (e : ε)
    (h : (d.execute slack event : Outcome ε ρ).result = Except.error e) :
    slack.delete_message event.channel event.user event.ts = Except.error e := by
  unfold DeleteCommand.execute at h
  cases hd : slack.delete_message event.channel event.user event.ts with
  | error e' => rw [hd] at h; simp only [Except.error.injEq] at h; subst h; rfl
  | ok u => rw [hd] at h; simp at h

/-- A successful `DeleteCommand.execute` returns `None`. -/
theorem delete_execute_ok (d : DeleteCommand) (slack : Slack ε)
    (event : Event) (r : Option ρ)
    (h : (d.execute slack event : Outcome ε ρ).result = Except.ok r) : r = none := by
  unfold DeleteCommand.execute at h
  cases hd : slack.delete_message event.channel event.user event.ts with
  | error e' => rw [hd] at h; simp at h
  | ok u => rw [hd] at h; simp at h; exact h.symm

/-- An error result of `HistoryCommand.execute` is the store's query error. -/
theorem history_execute_error (hc : HistoryCommand ρ) (store : HistoryStore ε)
    (event : Event) (e : ε)
    (h : (hc.execute store event : Outcome ε ρ).result = Except.error e) :
    store.objects hc.kwargsChannel hc.kwargsUser = Except.error e := by
  unfold HistoryCommand.execute at h
  cases hq : store.objects hc.kwargsChannel hc.kwargsUser with
  | error e' => rw [hq] at h; simp only [Except.error.injEq] at h; subst h; rfl
  | ok recs => rw [hq] at h; simp at h

/-- An error result of `ReactCommand.execute` is the client's `react`
error. -/
theorem react_execute_error (rc : ReactCommand) (slack : Slack ε)
    (event : Event) (e : ε)
    (h : (rc.execute slack event : Outcome ε ρ).result = Except.error e) :
    slack.react rc.emoji event = Except.error e := by
  unfold ReactCommand.execute at h
  cases hr : slack.react rc.emoji event with
  | error e' => rw [hr] at h; simp only [Except.error.injEq] at h; subst h; rfl
  | ok u => rw [hr] at h; simp at h

/-- A successful `ReactCommand.execute` returns `None`. -/
theorem react_execute_ok (rc : ReactCommand) (slack : Slack ε)
    (event : Event) (r : Option ρ)
    (h : (rc.execute slack event : Outcome ε ρ).result = Except.ok r) : r = none := by
  unfold ReactCommand.execute at h
  cases hr : slack.react rc.emoji event with
  | error e' => rw [hr] at h; simp at h
  | ok u => rw [hr] at h; simp at h; exact h.symm

/-- An error result of `UploadCommand.execute` is the client's `upload_file`
error. -/
theorem upload_execute_error (uc : UploadCommand) (slack : Slack ε)
    (event : Event) (e : ε)
    (h : (uc.execute slack event : Outcome ε ρ).result = Except.error e) :
    slack.upload_file uc.file_name uc.channel uc.user = Except.error e := by
  unfold UploadCommand.execute at h
  cases hu : slack.upload_file uc.file_name uc.channel uc.user with
  | error e' => rw [hu] at h; simp only [Except.error.injEq] at h; subst h; rfl
  | ok u => rw [hu] at h; simp at h

/-- A successful `UploadCommand.execute` returns `None`. -/
theorem upload_execute_ok (uc : UploadCommand) (slack : Slack ε)
    (event : Event) (r : Option ρ)
    (h : (uc.execute slack event : Outcome ε ρ).result = Except.ok r) : r = none := by
  unfold UploadCommand.execute at h
  cases hu : slack.upload_file uc.file_name uc.channel uc.user with
  | error e' => rw [hu] at h; simp at h
  | ok u => rw [hu] at h; simp at h; exact h.symm

/-- C7: no variant catches or transforms an error — whenever `execute`
results in an error, that exact error value was returned by one of the
client calls or by the store query. -/
theorem C7_errors_propagate (cmd : Command ρ) (slack : Slack ε) (store : HistoryStore ε)
    (event : Event) (e : ε)
    (h : ((cmd.execute slack store event).1).result = Except.error e) :
    (∃ chunk dest, slack.send chunk dest = Except.error e) ∨
    (∃ c u ts, slack.delete_message c u ts = Except.error e) ∨
    (∃ em ev, slack.react em ev = Except.error e) ∨
    (∃ f c u, slack.upload_file f c u = Except.error e) ∨
    (∃ c u, store.objects c u = Except.error e) := by
  cases cmd with
  | message m =>
    obtain ⟨chunk, hc⟩ := message_execute_error m slack event e h
    exact Or.inl ⟨chunk, m.dest, hc⟩
  | delete d =>
    exact Or.inr (Or.inl ⟨event.channel, event.user, event.ts,
      delete_execute_error d slack event e h⟩)
  | history hc =>
    exact Or.inr (Or.inr (Or.inr (Or.inr ⟨hc.kwargsChannel, hc.kwargsUser,
      history_execute_error hc store event e h⟩)))
  | react rc =>
    exact Or.inr (Or.inr (Or.inl ⟨rc.emoji, event,
      react_execute_error rc slack event e h⟩))
  | upload uc =>
    exact Or.inr (Or.inr (Or.inr (Or.inl ⟨uc.file_name, uc.channel, uc.user,
      upload_execute_error uc slack event e h⟩)))

/-- A client on which every call raises the error `"boom"`. -/
def failSlack : Slack String :=
  ⟨fun _ _ => Except.error "boom", fun _ _ _ => Except.error "boom",
   fun _ _ => Except.error "boom", fun _ _ _ => Except.error "boom"⟩

/-- An empty store that never fails, over string errors. -/
def storeS : HistoryStore String := ⟨fun _ _ => Except.ok []⟩

/-- Witness for `C7_errors_propagate`: a failing `send` surfaces verbatim. -/
theorem C7_witness :
    (∃ chunk dest, failSlack.send chunk dest = Except.error "boom") ∨
    (∃ c u ts, failSlack.delete_message c u ts = Except.error "boom") ∨
    (∃ em ev, failSlack.react em ev = Except.error "boom") ∨
    (∃ f c u, failSlack.upload_file f c u = Except.error "boom") ∨
    (∃ c u, storeS.objects c u = Except.error "boom") :=
  C7_errors_propagate (Command.message ⟨some "C", none, ['a']⟩ : Command Unit)
    failSlack storeS ev0 "boom" rfl

/-- C8: executing any command leaves the command object's own attributes
unchanged — the post-execution object equals the constructed one; effects
land only in the call trace, the removed files and the callback record. -/
theorem C8_execute_preserves_self (cmd : Command ρ) (slack : Slack ε)
    (store : HistoryStore ε) (event : Event) :
    (cmd.execute slack store event).2 = cmd := by
  cases cmd <;> rfl

/-- C9: `HistoryCommand` is the only variant whose `execute` can return a
non-`None` value: every other variant's successful result is `None`, and
some history command does return a non-`None` callback value. -/
theorem C9_only_history_returns_value :
    (∀ (ε ρ : Type) (cmd : Command ρ) (slack : Slack ε) (store : HistoryStore ε)
        (event : Event) (r : Option ρ),
      cmd.isHistory = false →
      ((cmd.execute slack store event).1).result = Except.ok r → r = none) ∧
    (∃ (hc : HistoryCommand Nat) (store : HistoryStore Unit) (event : Event) (v : Nat),
      (((Command.history hc).execute okSlack store event).1).result =
        Except.ok (some v)) := by
  constructor
  · intro ε ρ cmd slack store event r hnot hok
    cases cmd with
    | message m => exact message_execute_ok m slack event r hok
    | delete d => exact delete_execute_ok d slack event r hok
    | history hc => exact absurd hnot (by simp [Command.isHistory])
    | react rc => exact react_execute_ok rc slack event r hok
    | upload uc => exact upload_execute_ok uc slack event r hok
  · exact ⟨⟨fun l => some l.length, none, none⟩, ⟨fun _ _ => Except.ok []⟩, ev0, 0, rfl⟩

/-- Witness for `C9_only_history_returns_value`: a message command's
successful result is `None`. -/
theorem C9_witness : (none : Option Unit) = none :=
  C9_only_history_returns_value.1 Unit Unit
    (Command.message ⟨some "C", none, []⟩) okSlack (okStore []) ev0 none rfl rfl

/-- C10: a `MessageCommand` whose channel is the empty string (non-`None`
but falsy) resolves its destination via the user-DM-id lookup on `user`, and
its whole execution is identical to that of the same command with
`channel = None`. -/
theorem C10_empty_channel_like_none (u : Option String) (t : List Char)
    (slack : Slack ε) (event : Event) :
    MessageCommand.dest ⟨some "", u, t⟩ = Dest.dmid u ∧
    (MessageCommand.execute ⟨some "", u, t⟩ slack event : Outcome ε ρ) =
      MessageCommand.execute ⟨none, u, t⟩ slack event := by
  constructor
  · rfl
  · rfl

end Emoter
